import Mathlib

/-!
Verification development for the cycle-safe, schema-driven object-graph
serializer of the fabric-composer repository (`JSONGenerator`), and for the
connection-profile validator (`packages/composer-validate/lib/profileValidator.js`).

The `JSONGenerator` implementation file is not part of the source tree we were
given (only its test suite is), so the serializer below is modelled from the
specification (sections 3, 4, 6 and 8), with the behaviours the test fixtures
pin down exactly (expected output buffers for the cyclic graphs) reproduced
faithfully.  The profile validator is embedded directly from its source.
-/

namespace Composer

/-! ## Data model (spec section 3) -/

/-- Modelled from the spec: a `PropertyDeclaration` for a relationship-typed
property, as consumed by `JSONGenerator.visitRelationshipDeclaration` and
`getRelationshipText` (the implementation file is absent from the source tree;
only its tests are present). -/
structure RelationshipDeclaration where
  name : String
  targetNamespace : String
  targetTypeName : String
deriving DecidableEq

/-- Modelled from the spec: the value of a relationship-typed property is
either a reference-only `Relationship` pointer or a materialized `Resource`,
the latter represented by its index in the arena of resources (spec section 9
recommends the arena representation for the cyclic object graphs). -/
inductive RelValue where
  | ptr (ns typeName id : String)
  | res (idx : Nat)
deriving DecidableEq

/-- Modelled from the spec: a runtime field value of a resource: a scalar
string, a singular relationship value, or a homogeneous array of relationship
values. -/
inductive FieldVal where
  | str (s : String)
  | rel (v : RelValue)
  | relArray (vs : List RelValue)
deriving DecidableEq

/-- Modelled from the spec: a schema property: a scalar string field or a
relationship declaration. -/
inductive SchemaProperty where
  | str (name : String)
  | rel (d : RelationshipDeclaration)
deriving DecidableEq

/-- Modelled from the spec: a fully materialized node with identity
`(namespace, typeName, id)` and a mapping from property name to value. -/
structure ResourceData where
  ns : String
  typeName : String
  id : String
  fields : List (String × FieldVal)
deriving DecidableEq

/-- The fully-qualified identifier of a resource, the canonical form stored in
the seen-set. -/
def ResourceData.fqi (r : ResourceData) : String :=
  r.ns ++ "." ++ r.typeName ++ "#" ++ r.id

/-- The fully qualified type name of a resource. -/
def ResourceData.fqtn (r : ResourceData) : String :=
  r.ns ++ "." ++ r.typeName

/-- Field lookup by property name (a JS object property access). -/
def lookupField (r : ResourceData) (name : String) : Option FieldVal :=
  r.fields.lookup name

/-- Modelled from the spec: a class declaration of the schema registry. -/
structure ClassDeclaration where
  ns : String
  name : String
  properties : List SchemaProperty
deriving DecidableEq

/-- The fully qualified name of a class declaration. -/
def ClassDeclaration.fqn (c : ClassDeclaration) : String :=
  c.ns ++ "." ++ c.name

/-- Schema registry lookup: resolve a fully qualified type name. -/
def getType (mm : List ClassDeclaration) (fqtn : String) : Option ClassDeclaration :=
  mm.find? (fun c => c.fqn == fqtn)

/-- The two caller options of the serializer (spec section 6), defaulting to
`false` as in `new JSONGenerator()`. -/
structure JSONGenerator where
  convertResourcesToRelationships : Bool := false
  permitResourcesForRelationships : Bool := false
deriving DecidableEq

/-- The read-only collaborators of one serialize call: the generator options,
the schema registry and the arena of materialized resources. -/
structure Env where
  gen : JSONGenerator
  modelManager : List ClassDeclaration
  arena : List ResourceData

/-- The error taxonomy of the serializer (spec section 7), plus an explicit
resource-exhaustion marker for the fuelled recursion (spec section 5 treats
exhaustion as a fatal condition distinct from the logic errors). -/
inductive SerError where
  | relationshipType
  | unrecognisedValue (found : String)
  | unknownType (fqtn : String)
  | unknownResource (idx : Nat)
  | missingField (name : String)
  | fuelExhausted
deriving DecidableEq

/-- The error message carried by each error (the `RelationshipTypeError`
message is the one the tests match with `/Did not find a relationship/`). -/
def SerError.message : SerError → String
  | .relationshipType => "Did not find a relationship"
  | .unrecognisedValue found => "Unrecognised " ++ found
  | .unknownType fqtn => "Unknown type " ++ fqtn
  | .unknownResource _ => "Unknown resource"
  | .missingField name => "Missing field " ++ name
  | .fuelExhausted => "Maximum depth exceeded"

/-! ## Text sink (spec section 4.5)

The sink is an append-only character buffer.  The separator logic is the one
the test fixtures pin down: a key is preceded by a comma unless it is the first
entry of an object, the array-element comma is suppressed immediately after an
opening bracket, and a bare back-reference string is appended without any
separator of its own. -/

/-- The per-call mutable serialization state: the sink buffer, the seen-set of
fully-qualified identifiers, and (as pure instrumentation for the statements
below) the trace of identifiers that have been inlined as full objects. -/
structure WState where
  buf : List Char
  seen : List String
  trace : List String
deriving DecidableEq

/-- Sink primitive: open an object marker. -/
def openObject (b : List Char) : List Char := b ++ ['{']

/-- Sink primitive: close an object marker. -/
def closeObject (b : List Char) : List Char := b ++ ['}']

/-- Sink primitive: open an array marker. -/
def openArray (b : List Char) : List Char := b ++ ['[']

/-- Sink primitive: close an array marker. -/
def closeArray (b : List Char) : List Char := b ++ [']']

/-- Sink primitive: append a quoted string literal. -/
def writeString (b : List Char) (v : String) : List Char :=
  b ++ '"' :: (v.data ++ ['"'])

/-- Whether a property key needs a preceding comma: it does unless the buffer
is empty or an object was just opened. -/
def needsCommaForKey (b : List Char) : Bool :=
  match b.getLast? with
  | none => false
  | some c => c != '{'

/-- Sink primitive: write a property key, with its separating comma when the
key is not the first entry of the enclosing object. -/
def writeKey (b : List Char) (k : String) : List Char :=
  (if needsCommaForKey b then b ++ [','] else b) ++ '"' :: (k.data ++ ['"', ':'])

/-- Sink primitive: write an array-element comma, suppressed immediately after
an opening bracket. -/
def writeCommaCond (b : List Char) : List Char :=
  match b.getLast? with
  | some '[' => b
  | _ => b ++ [',']

/-! ## Relationship resolver (spec section 4.2) -/

/-- The namespace rule of the relationship resolver: the bare `id` when the
value's namespace equals the declaring property's target namespace, otherwise
the fully qualified `namespace.typeName#id` form. -/
def relationshipTextOf (d : RelationshipDeclaration) (ns typeName id : String) : String :=
  if ns = d.targetNamespace then id else ns ++ "." ++ typeName ++ "#" ++ id

/-- Modelled from the spec: `getRelationshipText` (section 4.2).  A pointer is
always resolved by the namespace rule; a materialized resource is permitted
only when `convertResourcesToRelationships` is enabled, and otherwise fails
with the `RelationshipTypeError` whose message the tests match with
`/Did not find a relationship/`. -/
def getRelationshipText (env : Env) (d : RelationshipDeclaration) (v : RelValue) :
    Except SerError String :=
  match v with
  | .ptr ns typeName id => .ok (relationshipTextOf d ns typeName id)
  | .res i =>
    if env.gen.convertResourcesToRelationships then
      match env.arena.get? i with
      | some r => .ok (relationshipTextOf d r.ns r.typeName r.id)
      | none => .error (.unknownResource i)
    else .error .relationshipType

/-! ## Relationship property visitor and composite visitor (spec sections 4.3, 4.4)

Only `inlineResource` recurses (on its fuel); the property-list walk, the
array-element walk and the relationship-property dispatch are parameterized by
the inlining function, which keeps every definition structurally recursive and
hence fully evaluable. -/

/-- One level of the composite visitor, abstracted over the function `inl` used
to inline a nested resource: walk the declared properties in schema order,
writing each scalar field and dispatching each relationship property. -/
def visitPropsWith (relVisit : RelationshipDeclaration → FieldVal → WState → Except SerError WState) :
    List SchemaProperty → ResourceData → WState → Except SerError WState
  | [], _, st => .ok st
  | .str name :: rest, r, st =>
    match lookupField r name with
    | some (.str s) =>
      visitPropsWith relVisit rest r { st with buf := writeString (writeKey st.buf name) s }
    | _ => .error (.missingField name)
  | .rel d :: rest, r, st =>
    match lookupField r d.name with
    | some v =>
      match relVisit d v st with
      | .error e => .error e
      | .ok st1 => visitPropsWith relVisit rest r st1
    | none => .error (.missingField d.name)

/-- The array branch of the relationship property visitor, abstracted over the
inlining function: elements are processed in their original order; a
materialized resource element is inlined when permitted (the inlining function
itself writes the element comma, or cuts the cycle with a bare back-reference
string and no separator); any other element is resolved to its reference text,
preceded by one separator when it is not the first element. -/
def visitElemsWith (env : Env)
    (inl : Bool → RelationshipDeclaration → Nat → WState → Except SerError WState) :
    RelationshipDeclaration → List RelValue → Bool → WState → Except SerError WState
  | _, [], _, st => .ok st
  | d, .res i :: rest, first, st =>
    if env.gen.permitResourcesForRelationships then
      match inl true d i st with
      | .error e => .error e
      | .ok st1 => visitElemsWith env inl d rest false st1
    else
      match getRelationshipText env d (.res i) with
      | .error e => .error e
      | .ok t =>
        let b := if first then st.buf else st.buf ++ [',']
        visitElemsWith env inl d rest false { st with buf := writeString b t }
  | d, .ptr ns typeName id :: rest, first, st =>
    let t := relationshipTextOf d ns typeName id
    let b := if first then st.buf else st.buf ++ [',']
    visitElemsWith env inl d rest false { st with buf := writeString b t }

/-- The relationship property visitor (spec section 4.3), abstracted over the
inlining function: write the property key, then handle the singular pointer,
singular resource (inlined when permitted, otherwise resolved — which fails by
default), array, and mismatched-scalar cases. -/
def visitRelDeclWith (env : Env)
    (inl : Bool → RelationshipDeclaration → Nat → WState → Except SerError WState)
    (d : RelationshipDeclaration) (v : FieldVal) (st : WState) : Except SerError WState :=
  let st := { st with buf := writeKey st.buf d.name }
  match v with
  | .rel (.res i) =>
    if env.gen.permitResourcesForRelationships then
      inl false d i st
    else
      match getRelationshipText env d (.res i) with
      | .error e => .error e
      | .ok t => .ok { st with buf := writeString st.buf t }
  | .rel (.ptr ns typeName id) =>
    .ok { st with buf := writeString st.buf (relationshipTextOf d ns typeName id) }
  | .relArray items =>
    match visitElemsWith env inl d items true { st with buf := openArray st.buf } with
    | .error e => .error e
    | .ok st1 => .ok { st1 with buf := closeArray st1.buf }
  | .str _ => .error .relationshipType

/-- The composite visitor `inline` (spec section 4.4), the only fuelled
recursion.  Steps: compute the fully-qualified identifier; if it is in the
seen-set, cut the cycle by writing the bare reference string (with no
separator); otherwise write the array-element comma when inlining an array
element, insert the identifier into the seen-set before descending, emit the
object (discriminator first, then the declared properties in schema order),
and remove the identifier when its object closes — the removal is the
behaviour the test fixtures pin down for sibling branches of cyclic graphs. -/
def inlineResource (env : Env) :
    Nat → Bool → RelationshipDeclaration → Nat → WState → Except SerError WState
  | 0, _, _, _, _ => .error .fuelExhausted
  | fuel + 1, inArray, d, i, st =>
    match env.arena.get? i with
    | none => .error (.unknownResource i)
    | some r =>
      if st.seen.contains r.fqi then
        .ok { st with buf := writeString st.buf (relationshipTextOf d r.ns r.typeName r.id) }
      else
        let b0 := if inArray then writeCommaCond st.buf else st.buf
        match getType env.modelManager r.fqtn with
        | none => .error (.unknownType r.fqtn)
        | some decl =>
          let st1 : WState :=
            { buf := writeString (writeKey (openObject b0) "$class") decl.fqn
              seen := r.fqi :: st.seen
              trace := st.trace ++ [r.fqi] }
          match visitPropsWith (visitRelDeclWith env (inlineResource env fuel)) decl.properties r st1 with
          | .error e => .error e
          | .ok st2 =>
            .ok { buf := closeObject st2.buf
                  seen := st2.seen.erase r.fqi
                  trace := st2.trace }

/-- The entry point the tests exercise: `visitRelationshipDeclaration` on a
relationship declaration and the value popped from the typed stack, with the
given fuel bound for the composite recursion. -/
def visitRelationshipDeclaration (env : Env) (fuel : Nat) (d : RelationshipDeclaration)
    (v : FieldVal) (st : WState) : Except SerError WState :=
  visitRelDeclWith env (inlineResource env fuel) d v st

/-- One serialize call on a relationship declaration: fresh empty buffer and
trace, caller-supplied seen-set (the tests pass `options.seenResources`). -/
def serializeRel (env : Env) (fuel : Nat) (d : RelationshipDeclaration) (v : FieldVal)
    (seen : List String) : Except SerError WState :=
  visitRelationshipDeclaration env fuel d v { buf := [], seen := seen, trace := [] }

/-- The rendered buffer of a successful run, as a string. -/
def renderOf (r : Except SerError WState) : Option String :=
  match r with
  | .ok st => some (String.mk st.buf)
  | .error _ => none

/-! ## Value dispatcher (spec section 4.1) -/

/-- Modelled from the spec: the closed set of singular runtime value shapes the
dispatcher classifies, plus the catch-all for unrecognized shapes (for example
a bare numeric literal such as `3.142` passed where a typed value is
expected). -/
inductive SingularValue where
  | scalar (s : String)
  | relationship (ns typeName id : String)
  | resource (idx : Nat)
  | raw (repr : String)
deriving DecidableEq

/-- Modelled from the spec: a runtime value routed by the dispatcher is a
singular value or a homogeneous array of singular values. -/
inductive RuntimeValue where
  | single (v : SingularValue)
  | arr (vs : List SingularValue)
deriving DecidableEq

/-- Modelled from the spec: dispatch of one singular value (spec section 4.1):
scalars are written literally, relationship pointers are resolved, materialized
resources go to the composite visitor, and any unrecognized shape fails with
`UnrecognisedValueError`. -/
def dispatchSingular (env : Env) (fuel : Nat) (d : RelationshipDeclaration)
    (v : SingularValue) (st : WState) : Except SerError WState :=
  match v with
  | .scalar s => .ok { st with buf := writeString st.buf s }
  | .relationship ns typeName id =>
    .ok { st with buf := writeString st.buf (relationshipTextOf d ns typeName id) }
  | .resource i => inlineResource env fuel false d i st
  | .raw found => .error (.unrecognisedValue found)

/-- Modelled from the spec: the array branch of the dispatcher. -/
def dispatchMany (env : Env) (fuel : Nat) (d : RelationshipDeclaration) :
    List SingularValue → WState → Except SerError WState
  | [], st => .ok st
  | v :: rest, st =>
    match dispatchSingular env fuel d v st with
    | .error e => .error e
    | .ok st1 => dispatchMany env fuel d rest st1

/-- Modelled from the spec: the value dispatcher (spec section 4.1), routing a
runtime value to the matching visit routine; the unrecognized arm aborts the
call immediately through the `Except` error channel. -/
def dispatch (env : Env) (fuel : Nat) (d : RelationshipDeclaration)
    (v : RuntimeValue) (st : WState) : Except SerError WState :=
  match v with
  | .single s => dispatchSingular env fuel d s st
  | .arr vs =>
    match dispatchMany env fuel d vs { st with buf := openArray st.buf } with
    | .error e => .error e
    | .ok st1 => .ok { st1 with buf := closeArray st1.buf }

end Composer

namespace Composer

/-! ## Concrete fixtures

These mirror the model file and mock graphs of the test suite
(`SimpleAssetCircle`, `SimpleAssetCircleArray`, the `DOGE_n` resources), plus a
few small graphs used below to separate per-call from per-path behaviour. -/

/-- The relevant class declarations of the `org.acme` model file of the tests. -/
def mmAcme : List ClassDeclaration :=
  [ { ns := "org.acme", name := "SimpleAssetCircle",
      properties := [ .str "assetId",
        .rel { name := "next", targetNamespace := "org.acme", targetTypeName := "SimpleAssetCircle" } ] },
    { ns := "org.acme", name := "SimpleAssetCircleArray",
      properties := [ .str "assetId",
        .rel { name := "next", targetNamespace := "org.acme", targetTypeName := "SimpleAssetCircleArray" } ] } ]

/-- The `next` relationship of `SimpleAssetCircle`. -/
def nextDecl : RelationshipDeclaration :=
  { name := "next", targetNamespace := "org.acme", targetTypeName := "SimpleAssetCircle" }

/-- The `next` relationship of `SimpleAssetCircleArray`. -/
def nextArrDecl : RelationshipDeclaration :=
  { name := "next", targetNamespace := "org.acme", targetTypeName := "SimpleAssetCircleArray" }

/-- The `myAsset` relationship of `MyTx1`. -/
def myAssetDecl : RelationshipDeclaration :=
  { name := "myAsset", targetNamespace := "org.acme", targetTypeName := "MyAsset1" }

/-- The `myAssets` array relationship of `MyTx2`. -/
def myAssetsDecl : RelationshipDeclaration :=
  { name := "myAssets", targetNamespace := "org.acme", targetTypeName := "MyAsset1" }

/-- The 3-node cycle `DOGE_1 → DOGE_2 → DOGE_3 → DOGE_1` over singular `next`. -/
def circleArena : List ResourceData :=
  [ { ns := "org.acme", typeName := "SimpleAssetCircle", id := "DOGE_1",
      fields := [("assetId", .str "DOGE_1"), ("next", .rel (.res 1))] },
    { ns := "org.acme", typeName := "SimpleAssetCircle", id := "DOGE_2",
      fields := [("assetId", .str "DOGE_2"), ("next", .rel (.res 2))] },
    { ns := "org.acme", typeName := "SimpleAssetCircle", id := "DOGE_3",
      fields := [("assetId", .str "DOGE_3"), ("next", .rel (.res 0))] } ]

/-- Environment for the 3-node cycle with `permitResourcesForRelationships`
enabled, as in `new JSONGenerator(false, true)`. -/
def circleEnv : Env :=
  { gen := { convertResourcesToRelationships := false, permitResourcesForRelationships := true },
    modelManager := mmAcme, arena := circleArena }

/-- The cyclic array graph of the tests: each `DOGE_i` points at the other two. -/
def circleArrayArena : List ResourceData :=
  [ { ns := "org.acme", typeName := "SimpleAssetCircleArray", id := "DOGE_1",
      fields := [("assetId", .str "DOGE_1"), ("next", .relArray [.res 1, .res 2])] },
    { ns := "org.acme", typeName := "SimpleAssetCircleArray", id := "DOGE_2",
      fields := [("assetId", .str "DOGE_2"), ("next", .relArray [.res 2, .res 0])] },
    { ns := "org.acme", typeName := "SimpleAssetCircleArray", id := "DOGE_3",
      fields := [("assetId", .str "DOGE_3"), ("next", .relArray [.res 0, .res 1])] } ]

/-- Environment for the cyclic array graph, `new JSONGenerator(false, true)`. -/
def circleArrayEnv : Env :=
  { gen := { convertResourcesToRelationships := false, permitResourcesForRelationships := true },
    modelManager := mmAcme, arena := circleArrayArena }

/-- Environment with both options at their defaults, `new JSONGenerator()`. -/
def defaultEnv : Env :=
  { gen := {}, modelManager := mmAcme, arena := circleArena }

/-- An acyclic two-node graph `A_1 → B_1` (with `B_1` ending in a plain
pointer), used to show one call can inline the same identifier twice when it is
reachable along two sibling branches. -/
def chainArena : List ResourceData :=
  [ { ns := "org.acme", typeName := "SimpleAssetCircle", id := "A_1",
      fields := [("assetId", .str "A_1"), ("next", .rel (.res 1))] },
    { ns := "org.acme", typeName := "SimpleAssetCircle", id := "B_1",
      fields := [("assetId", .str "B_1"), ("next", .rel (.ptr "org.acme" "SimpleAssetCircle" "A_1"))] } ]

/-- Environment for the two-node graph, permitting inlining. -/
def chainEnv : Env :=
  { gen := { convertResourcesToRelationships := false, permitResourcesForRelationships := true },
    modelManager := mmAcme, arena := chainArena }

/-- An array relationship declaration targeting `SimpleAssetCircle`. -/
def itemsDecl : RelationshipDeclaration :=
  { name := "items", targetNamespace := "org.acme", targetTypeName := "SimpleAssetCircle" }

/-- A single resource whose relationship array is empty. -/
def soloArena : List ResourceData :=
  [ { ns := "org.acme", typeName := "SimpleAssetCircle", id := "A_1",
      fields := [("assetId", .str "A_1"), ("next", .relArray [])] } ]

/-- Environment for the single-resource graph, permitting inlining. -/
def soloEnv : Env :=
  { gen := { convertResourcesToRelationships := false, permitResourcesForRelationships := true },
    modelManager := mmAcme, arena := soloArena }

/-- A directly self-referencing resource whose `next` array points at itself
twice. -/
def selfLoopArena : List ResourceData :=
  [ { ns := "org.acme", typeName := "SimpleAssetCircleArray", id := "DOGE_1",
      fields := [("assetId", .str "DOGE_1"), ("next", .relArray [.res 0, .res 0])] } ]

/-- Environment for the self-referencing resource, permitting inlining. -/
def selfLoopEnv : Env :=
  { gen := { convertResourcesToRelationships := false, permitResourcesForRelationships := true },
    modelManager := mmAcme, arena := selfLoopArena }

/-- The `DOGE_1` resource of `circleArena` with its runtime fields stored in
the opposite order (`next` first), same name-to-value mapping. -/
def reversedArena : List ResourceData :=
  [ { ns := "org.acme", typeName := "SimpleAssetCircle", id := "DOGE_1",
      fields := [("next", .rel (.ptr "org.acme" "SimpleAssetCircle" "DOGE_9")), ("assetId", .str "DOGE_1")] } ]

/-- Environment for the reversed-fields resource, permitting inlining. -/
def reversedEnv : Env :=
  { gen := { convertResourcesToRelationships := false, permitResourcesForRelationships := true },
    modelManager := mmAcme, arena := reversedArena }

end Composer

namespace Composer

/-! ## Connection-profile validator

Embedded from `src/packages/composer-validate/lib/profileValidator.js`.  The
file-system and parsing steps (`validateInput`, `loadProfile`) throw before any
rule runs and are outside the model; everything from `applyRules` on is
embedded directly.  The `valid-url` collaborator is abstracted as a boolean
parameter `isUri`. -/

/-- A JavaScript `TypeError` raised when a rule dereferences an absent
section (for example `profile.client.organization` with no `client`). -/
inductive JsError where
  | typeError
deriving DecidableEq

/-- The `client` section of a connection profile. -/
structure ClientSection where
  organization : Option String
deriving DecidableEq

/-- One orderer definition; `url` is `some` exactly when the orderer object
has a `url` key. -/
structure OrdererDef where
  url : Option String
deriving DecidableEq

/-- A parsed connection profile, restricted to the parts the rules read.
`none` models an absent (or `null`) property; the boolean sections model mere
presence, which is all `baseSectionsExist` observes. -/
structure ConnectionProfile where
  name : Option String
  xType : Option String
  client : Option ClientSection
  channels : Bool
  certificateAuthorities : Bool
  peers : Bool
  organizations : Option (List String)
  orderers : Option (List (String × OrdererDef))
deriving DecidableEq

/-- JavaScript truthiness of a possibly-absent string property: absent and the
empty string are falsy. -/
def jsTruthyStr : Option String → Bool
  | none => false
  | some s => s != ""

/-- The test of `/^[a-z0-9]+$/i`: nonempty and every character an ASCII letter
or digit. -/
def nameRegexTest (s : String) : Bool :=
  s.length != 0 && s.data.all (fun c => c.isAlpha || c.isDigit)

/-- Embedded from `profileValidator.js` lines 120-129: push one error if the
name property is falsy, one error if it fails the alphanumeric regular
expression, and none otherwise. -/
def profileHasValidNameProperty (p : ConnectionProfile) (errorList : List String) :
    List String :=
  if jsTruthyStr p.name = false then
    errorList ++ ["profile does not have a name property"]
  else
    match p.name with
    | some s =>
      if nameRegexTest s then errorList
      else errorList ++ ["profile name property value is not valid for Composer: " ++ s]
    | none => errorList ++ ["profile does not have a name property"]

/-- Embedded from `profileValidator.js` lines 136-146. -/
def profileHasValidXTypeProperty (p : ConnectionProfile) (errorList : List String) :
    List String :=
  if jsTruthyStr p.xType = false then
    errorList ++ ["profile does not have an x-type property"]
  else
    match p.xType with
    | some s =>
      if ["hlfv1", "hlfv11"].contains s then errorList
      else errorList ++ ["profile x-type property value is not valid for Composer: " ++ s]
    | none => errorList ++ ["profile does not have an x-type property"]

/-- Embedded from `profileValidator.js` lines 152-171. -/
def baseSectionsExist (p : ConnectionProfile) (errorList : List String) : List String :=
  let e := if p.client.isNone then errorList ++ ["Profile does not specify a client"] else errorList
  let e := if p.channels then e else e ++ ["Profile does not specify any channels"]
  let e := if p.certificateAuthorities then e
           else e ++ ["Profile does not specify any certificateAuthorities"]
  let e := if p.orderers.isNone then e ++ ["Profile does not specify any orderers"] else e
  let e := if p.organizations.isNone then e ++ ["Profile does not specify any organizations"] else e
  if p.peers then e else e ++ ["Profile does not specify any peers"]

/-- Embedded from `profileValidator.js` lines 177-187; dereferencing
`profile.client.organization` with no `client`, or indexing an absent
`organizations` section, raises a `TypeError`. -/
def clientValidation (p : ConnectionProfile) (errorList : List String) :
    Except JsError (List String) :=
  match p.client with
  | none => .error .typeError
  | some c =>
    if jsTruthyStr c.organization = false then
      .ok (errorList ++ ["Profile does not specify an owning organization for the client"])
    else
      match c.organization, p.organizations with
      | some org, some orgs =>
        if orgs.contains org then .ok errorList
        else .ok (errorList ++
          ["Profile client specfies an organization that is not included in the list of organizations: " ++ org])
      | some _, none => .error .typeError
      | none, _ => .ok (errorList ++ ["Profile does not specify an owning organization for the client"])

/-- Embedded from `profileValidator.js` lines 193-211; `Object.keys(orderers)`
on an absent section raises a `TypeError`. -/
def orderersValidation (isUri : String → Bool) (p : ConnectionProfile)
    (errorList : List String) : Except JsError (List String) :=
  match p.orderers with
  | none => .error .typeError
  | some orderers =>
    if orderers.length = 0 then .ok (errorList ++ ["Profile does not specify any orderers"])
    else .ok (orderers.foldl (fun e kv =>
      match kv.2.url with
      | none => e ++ ["Orderer does not have a url property: " ++ kv.1]
      | some u =>
        if isUri u then e
        else e ++ ["Orderer " ++ kv.1 ++ " does not have a valid url property: " ++ u]) errorList)

/-- Embedded from `profileValidator.js` lines 99-112: apply the five rules in
the order of the `rules` map, accumulating onto the module-level error list. -/
def applyRules (isUri : String → Bool) (p : ConnectionProfile) (errorList : List String) :
    Except JsError (List String) :=
  let e1 := profileHasValidNameProperty p errorList
  let e2 := profileHasValidXTypeProperty p e1
  let e3 := baseSectionsExist p e2
  match clientValidation p e3 with
  | .error err => .error err
  | .ok e4 => orderersValidation isUri p e4

/-- Embedded from `profileValidator.js` lines 36-50, from rule application on:
run the rules over the module-level `errorList`, then either print the errors
and truncate the list to length 0, or print the success message.  The result
is the console output paired with the final value of `errorList`. -/
def validateProfile (isUri : String → Bool) (p : ConnectionProfile)
    (errorList : List String) : Except JsError (List String × List String) :=
  match applyRules isUri p errorList with
  | .error e => .error e
  | .ok errs =>
    if errs.length ≠ 0 then .ok (errs, [])
    else .ok (["SUCCESS: the profile is valid"], errs)

end Composer

namespace Composer

/-! ## Termination measure and claim-statement helpers -/

/-- The number of distinct arena identifiers not in the given seen-set. -/
def freshCount (env : Env) (seen : List String) : Nat :=
  ((env.arena.map ResourceData.fqi).dedup).countP (fun x => !(seen.contains x))

/-! ## Further definitions used by the claim statements -/

/-- The characters an inlined object starts with: the object marker followed by
the type discriminator property with the given fully qualified type name. -/
def discriminatorChunk (fqtn : String) : List Char :=
  ("\x7b\"$class\":\"" ++ fqtn ++ "\"").data

/-- Environment with `convertResourcesToRelationships` enabled only, as in
`new JSONGenerator(true)`. -/
def convEnv : Env :=
  { gen := { convertResourcesToRelationships := true, permitResourcesForRelationships := false },
    modelManager := mmAcme, arena := circleArena }

/-- A connection profile that passes every rule. -/
def cleanProfile : ConnectionProfile :=
  { name := some "test", xType := some "hlfv1",
    client := some { organization := some "Org1" },
    channels := true, certificateAuthorities := true, peers := true,
    organizations := some ["Org1"],
    orderers := some [("orderer1", { url := some "grpc_localhost_7050" })] }

/-- A connection profile that trips several rules. -/
def dirtyProfile : ConnectionProfile :=
  { name := some "%test%", xType := some "hlfv99",
    client := some { organization := some "Org1" },
    channels := true, certificateAuthorities := true, peers := true,
    organizations := some ["NoOrg1Here"],
    orderers := some [("orderer2", { url := none })] }


end Composer

namespace Composer

/-! ## Restoration of the seen-set

Every completed visit leaves the seen-set exactly as it found it: an
identifier inserted before a descent is erased when the object closes. -/

theorem seen_eq_visitPropsWith
    (relVisit : RelationshipDeclaration → FieldVal → WState → Except SerError WState)
    (hrel : ∀ d v st st', relVisit d v st = .ok st' → st'.seen = st.seen) :
    ∀ (props : List SchemaProperty) (r : ResourceData) (st st' : WState),
      visitPropsWith relVisit props r st = .ok st' → st'.seen = st.seen := by
  intro props
  induction props with
  | nil =>
    intro r st st' h
    simp only [visitPropsWith, Except.ok.injEq] at h
    rw [← h]
  | cons p rest ih =>
    intro r st st' h
    cases p with
    | str name =>
      simp only [visitPropsWith] at h
      split at h
      · have h1 := ih _ _ _ h
        exact h1
      · simp at h
    | rel d =>
      simp only [visitPropsWith] at h
      split at h
      · split at h
        · simp at h
        · next st1 hok =>
          have h1 := ih _ _ _ h
          have h2 := hrel _ _ _ _ hok
          exact h1.trans h2
      · simp at h

theorem seen_eq_visitElemsWith (env : Env)
    (inl : Bool → RelationshipDeclaration → Nat → WState → Except SerError WState)
    (hinl : ∀ ia d i st st', inl ia d i st = .ok st' → st'.seen = st.seen) :
    ∀ (d : RelationshipDeclaration) (items : List RelValue) (first : Bool) (st st' : WState),
      visitElemsWith env inl d items first st = .ok st' → st'.seen = st.seen := by
  intro d items
  induction items with
  | nil =>
    intro first st st' h
    simp only [visitElemsWith, Except.ok.injEq] at h
    rw [← h]
  | cons v rest ih =>
    intro first st st' h
    cases v with
    | res i =>
      simp only [visitElemsWith] at h
      split at h
      · split at h
        · simp at h
        · next st1 hok =>
          have h1 := ih _ _ _ h
          have h2 := hinl _ _ _ _ _ hok
          exact h1.trans h2
      · split at h
        · simp at h
        · have h1 := ih _ _ _ h
          exact h1
    | ptr ns typeName id =>
      simp only [visitElemsWith] at h
      have h1 := ih _ _ _ h
      exact h1

theorem seen_eq_visitRelDeclWith (env : Env)
    (inl : Bool → RelationshipDeclaration → Nat → WState → Except SerError WState)
    (hinl : ∀ ia d i st st', inl ia d i st = .ok st' → st'.seen = st.seen) :
    ∀ (d : RelationshipDeclaration) (v : FieldVal) (st st' : WState),
      visitRelDeclWith env inl d v st = .ok st' → st'.seen = st.seen := by
  intro d v st st' h
  cases v with
  | str s => simp [visitRelDeclWith] at h
  | rel rv =>
    cases rv with
    | res i =>
      simp only [visitRelDeclWith] at h
      split at h
      · have h1 := hinl _ _ _ _ _ h
        exact h1
      · split at h
        · simp at h
        · simp only [Except.ok.injEq] at h
          rw [← h]
    | ptr ns typeName id =>
      simp only [visitRelDeclWith, Except.ok.injEq] at h
      rw [← h]
  | relArray items =>
    simp only [visitRelDeclWith] at h
    split at h
    · simp at h
    · next st1 hok =>
      simp only [Except.ok.injEq] at h
      rw [← h]
      have h1 := seen_eq_visitElemsWith env inl hinl _ _ _ _ _ hok
      exact h1

theorem seen_eq_inlineResource (env : Env) :
    ∀ (fuel : Nat) (inArray : Bool) (d : RelationshipDeclaration) (i : Nat) (st st' : WState),
      inlineResource env fuel inArray d i st = .ok st' → st'.seen = st.seen := by
  intro fuel
  induction fuel with
  | zero => intro ia d i st st' h; simp [inlineResource] at h
  | succ fuel ih =>
    intro ia d i st st' h
    simp only [inlineResource] at h
    split at h
    · simp at h
    · next r hr =>
      split at h
      · simp only [Except.ok.injEq] at h
        rw [← h]
      · split at h
        · simp at h
        · next decl hdecl =>
          split at h
          · simp at h
          · next st2 hok =>
            have h2 : st2.seen = r.fqi :: st.seen :=
              seen_eq_visitPropsWith _ (seen_eq_visitRelDeclWith env _ ih) _ _ _ _ hok
            simp only [Except.ok.injEq] at h
            rw [← h]
            simp [h2]

theorem seen_eq_visitRelationshipDeclaration (env : Env) (fuel : Nat)
    (d : RelationshipDeclaration) (v : FieldVal) (st st' : WState)
    (h : visitRelationshipDeclaration env fuel d v st = .ok st') : st'.seen = st.seen :=
  seen_eq_visitRelDeclWith env _ (seen_eq_inlineResource env fuel) d v st st' h

end Composer

namespace Composer

/-! ## The sink is append-only

Every visit extends the buffer it was given; nothing already written is
modified. -/

theorem writeString_eq (b : List Char) (v : String) :
    writeString b v = b ++ ('"' :: (v.data ++ ['"'])) := rfl

theorem writeKey_eq_append (b : List Char) (k : String) : ∃ t, writeKey b k = b ++ t := by
  unfold writeKey
  split
  · exact ⟨[','] ++ '"' :: (k.data ++ ['"', ':']), by simp⟩
  · exact ⟨'"' :: (k.data ++ ['"', ':']), rfl⟩

theorem writeCommaCond_eq_append (b : List Char) : ∃ t, writeCommaCond b = b ++ t := by
  unfold writeCommaCond
  split
  · exact ⟨[], by simp⟩
  · exact ⟨[','], rfl⟩

theorem ite_buf_eq_append (c : Prop) [Decidable c] (b t : List Char) :
    ∃ u, (if c then b else b ++ t) = b ++ u := by
  split
  · exact ⟨[], by simp⟩
  · exact ⟨t, rfl⟩

theorem buf_ext_visitPropsWith
    (relVisit : RelationshipDeclaration → FieldVal → WState → Except SerError WState)
    (hrel : ∀ d v st st', relVisit d v st = .ok st' → ∃ t, st'.buf = st.buf ++ t) :
    ∀ (props : List SchemaProperty) (r : ResourceData) (st st' : WState),
      visitPropsWith relVisit props r st = .ok st' → ∃ t, st'.buf = st.buf ++ t := by
  intro props
  induction props with
  | nil =>
    intro r st st' h
    simp only [visitPropsWith, Except.ok.injEq] at h
    exact ⟨[], by rw [← h]; simp⟩
  | cons p rest ih =>
    intro r st st' h
    cases p with
    | str name =>
      simp only [visitPropsWith] at h
      split at h
      · next s _ =>
        obtain ⟨t2, h2⟩ := ih _ _ _ h
        obtain ⟨t1, h1⟩ := writeKey_eq_append st.buf name
        refine ⟨t1 ++ ('"' :: (s.data ++ ['"'])) ++ t2, ?_⟩
        rw [h2]
        show writeString (writeKey st.buf name) s ++ t2 = _
        rw [writeString_eq, h1]
        simp
      · simp at h
    | rel d =>
      simp only [visitPropsWith] at h
      split at h
      · split at h
        · simp at h
        · next st1 hok =>
          obtain ⟨t2, h2⟩ := ih _ _ _ h
          obtain ⟨t1, h1⟩ := hrel _ _ _ _ hok
          exact ⟨t1 ++ t2, by rw [h2, h1]; simp⟩
      · simp at h

theorem buf_ext_visitElemsWith (env : Env)
    (inl : Bool → RelationshipDeclaration → Nat → WState → Except SerError WState)
    (hinl : ∀ ia d i st st', inl ia d i st = .ok st' → ∃ t, st'.buf = st.buf ++ t) :
    ∀ (d : RelationshipDeclaration) (items : List RelValue) (first : Bool) (st st' : WState),
      visitElemsWith env inl d items first st = .ok st' → ∃ t, st'.buf = st.buf ++ t := by
  intro d items
  induction items with
  | nil =>
    intro first st st' h
    simp only [visitElemsWith, Except.ok.injEq] at h
    exact ⟨[], by rw [← h]; simp⟩
  | cons v rest ih =>
    intro first st st' h
    cases v with
    | res i =>
      simp only [visitElemsWith] at h
      split at h
      · split at h
        · simp at h
        · next st1 hok =>
          obtain ⟨t2, h2⟩ := ih _ _ _ h
          obtain ⟨t1, h1⟩ := hinl _ _ _ _ _ hok
          exact ⟨t1 ++ t2, by rw [h2, h1]; simp⟩
      · split at h
        · simp at h
        · next t ht =>
          obtain ⟨t2, h2⟩ := ih _ _ _ h
          obtain ⟨u, hu⟩ := ite_buf_eq_append (first = true) st.buf [',']
          refine ⟨u ++ ('"' :: (t.data ++ ['"'])) ++ t2, ?_⟩
          rw [h2]
          show writeString (if first = true then st.buf else st.buf ++ [',']) t ++ t2 = _
          rw [writeString_eq, hu]
          simp
    | ptr ns typeName id =>
      simp only [visitElemsWith] at h
      obtain ⟨t2, h2⟩ := ih _ _ _ h
      obtain ⟨u, hu⟩ := ite_buf_eq_append (first = true) st.buf [',']
      refine ⟨u ++ ('"' :: ((relationshipTextOf d ns typeName id).data ++ ['"'])) ++ t2, ?_⟩
      rw [h2]
      show writeString (if first = true then st.buf else st.buf ++ [','])
        (relationshipTextOf d ns typeName id) ++ t2 = _
      rw [writeString_eq, hu]
      simp

theorem buf_ext_visitRelDeclWith (env : Env)
    (inl : Bool → RelationshipDeclaration → Nat → WState → Except SerError WState)
    (hinl : ∀ ia d i st st', inl ia d i st = .ok st' → ∃ t, st'.buf = st.buf ++ t) :
    ∀ (d : RelationshipDeclaration) (v : FieldVal) (st st' : WState),
      visitRelDeclWith env inl d v st = .ok st' → ∃ t, st'.buf = st.buf ++ t := by
  intro d v st st' h
  obtain ⟨tk, hk⟩ := writeKey_eq_append st.buf d.name
  cases v with
  | str s => simp [visitRelDeclWith] at h
  | rel rv =>
    cases rv with
    | res i =>
      simp only [visitRelDeclWith] at h
      split at h
      · obtain ⟨t1, h1⟩ := hinl _ _ _ _ _ h
        refine ⟨tk ++ t1, ?_⟩
        rw [h1]
        show writeKey st.buf d.name ++ t1 = _
        rw [hk]
        simp
      · split at h
        · simp at h
        · next t ht =>
          simp only [Except.ok.injEq] at h
          rw [← h]
          refine ⟨tk ++ ('"' :: (t.data ++ ['"'])), ?_⟩
          show writeString (writeKey st.buf d.name) t = _
          rw [writeString_eq, hk]
          simp
    | ptr ns typeName id =>
      simp only [visitRelDeclWith, Except.ok.injEq] at h
      rw [← h]
      refine ⟨tk ++ ('"' :: ((relationshipTextOf d ns typeName id).data ++ ['"'])), ?_⟩
      show writeString (writeKey st.buf d.name) _ = _
      rw [writeString_eq, hk]
      simp
  | relArray items =>
    simp only [visitRelDeclWith] at h
    split at h
    · simp at h
    · next st1 hok =>
      simp only [Except.ok.injEq] at h
      obtain ⟨t1, h1⟩ := buf_ext_visitElemsWith env inl hinl _ _ _ _ _ hok
      rw [← h]
      refine ⟨tk ++ ['['] ++ t1 ++ [']'], ?_⟩
      show closeArray st1.buf = _
      unfold closeArray
      rw [h1]
      show openArray (writeKey st.buf d.name) ++ t1 ++ [']'] = _
      unfold openArray
      rw [hk]
      simp

theorem buf_ext_inlineResource (env : Env) :
    ∀ (fuel : Nat) (inArray : Bool) (d : RelationshipDeclaration) (i : Nat) (st st' : WState),
      inlineResource env fuel inArray d i st = .ok st' → ∃ t, st'.buf = st.buf ++ t := by
  intro fuel
  induction fuel with
  | zero => intro ia d i st st' h; simp [inlineResource] at h
  | succ fuel ih =>
    intro ia d i st st' h
    simp only [inlineResource] at h
    split at h
    · simp at h
    · next r hr =>
      split at h
      · simp only [Except.ok.injEq] at h
        rw [← h]
        exact ⟨'"' :: ((relationshipTextOf d r.ns r.typeName r.id).data ++ ['"']),
          writeString_eq st.buf _⟩
      · split at h
        · simp at h
        · next decl hdecl =>
          split at h
          · simp at h
          · next st2 hok =>
            simp only [Except.ok.injEq] at h
            obtain ⟨t2, h2⟩ :=
              buf_ext_visitPropsWith _ (buf_ext_visitRelDeclWith env _ ih) _ _ _ _ hok
            obtain ⟨u, hu⟩ : ∃ u, (if ia = true then writeCommaCond st.buf else st.buf) = st.buf ++ u := by
              split
              · exact writeCommaCond_eq_append st.buf
              · exact ⟨[], by simp⟩
            obtain ⟨tk, hk⟩ := writeKey_eq_append
              ((if ia = true then writeCommaCond st.buf else st.buf) ++ ['{']) "$class"
            rw [← h]
            refine ⟨u ++ ['{'] ++ tk ++ ('"' :: (decl.fqn.data ++ ['"'])) ++ t2 ++ ['}'], ?_⟩
            show closeObject st2.buf = _
            unfold closeObject
            rw [h2]
            show writeString (writeKey ((if ia = true then writeCommaCond st.buf else st.buf) ++ ['{']) "$class") decl.fqn ++ t2 ++ ['}'] = _
            rw [writeString_eq, hk, hu]
            simp

end Composer

namespace Composer

/-! ## Termination measure

`freshCount` counts the distinct fully-qualified identifiers of the arena not
yet in the seen-set.  Inserting the identifier of an arena resource that is not
yet seen strictly decreases it, which bounds the inlining depth by the number
of distinct identifiers of the graph. -/

theorem getRelationshipText_ne_fuel (env : Env) (d : RelationshipDeclaration) (v : RelValue) :
    getRelationshipText env d v ≠ .error .fuelExhausted := by
  intro h
  cases v with
  | ptr ns typeName id => simp [getRelationshipText] at h
  | res i =>
    simp only [getRelationshipText] at h
    split at h
    · split at h <;> simp at h
    · simp at h

theorem countP_lt_of_witness {l : List String} {p q : String → Bool}
    (hpq : ∀ x ∈ l, p x = true → q x = true) {a : String}
    (ha : a ∈ l) (hq : q a = true) (hp : p a = false) :
    l.countP p < l.countP q := by
  induction l with
  | nil => cases ha
  | cons x xs ih =>
    have hpq' : ∀ y ∈ xs, p y = true → q y = true :=
      fun y hy => hpq y (List.mem_cons_of_mem x hy)
    have hmono : xs.countP p ≤ xs.countP q := List.countP_mono_left hpq'
    rcases List.mem_cons.mp ha with rfl | hmem
    · simp only [List.countP_cons, hp, hq]
      simp
      omega
    · have hlt := ih hpq' hmem
      by_cases hx : p x = true
      · have hqx := hpq x (List.mem_cons_self x xs) hx
        simp only [List.countP_cons, hx, hqx]
        simp
        omega
      · have hx' : p x = false := by
          cases hpx : p x
          · rfl
          · exact absurd hpx hx
        simp only [List.countP_cons, hx']
        cases hqx : q x <;> simp <;> omega

theorem freshCount_lt (env : Env) {seen : List String} {r : ResourceData}
    (hr : r ∈ env.arena) (hnew : seen.contains r.fqi = false) :
    freshCount env (r.fqi :: seen) < freshCount env seen := by
  apply countP_lt_of_witness (a := r.fqi)
  · intro x _ hpx
    simp only [Bool.not_eq_true', List.contains_cons, Bool.or_eq_false_iff] at hpx
    simpa using hpx.2
  · exact List.mem_dedup.mpr (List.mem_map_of_mem _ hr)
  · simpa using hnew
  · simp [List.contains_cons]

theorem ne_fuel_visitElemsWith (env : Env)
    (inl : Bool → RelationshipDeclaration → Nat → WState → Except SerError WState)
    (P : List String → Prop)
    (hseen : ∀ ia d i st st', inl ia d i st = .ok st' → st'.seen = st.seen)
    (hinl : ∀ ia d i st, P st.seen → inl ia d i st ≠ .error .fuelExhausted) :
    ∀ (d : RelationshipDeclaration) (items : List RelValue) (first : Bool) (st : WState),
      P st.seen → visitElemsWith env inl d items first st ≠ .error .fuelExhausted := by
  intro d items
  induction items with
  | nil => intro first st _ h; simp [visitElemsWith] at h
  | cons v rest ih =>
    intro first st hP h
    cases v with
    | res i =>
      simp only [visitElemsWith] at h
      split at h
      · split at h
        · next e he =>
          simp only [Except.error.injEq] at h
          subst h
          exact hinl _ _ _ _ hP he
        · next st1 hok =>
          have h1 : P st1.seen := by

            rw [hseen _ _ _ _ _ hok]
            exact hP
          exact ih _ _ h1 h
      · split at h
        · next e he =>
          simp only [Except.error.injEq] at h
          subst h
          exact getRelationshipText_ne_fuel env d (.res i) he
        · refine ih false _ ?_ h
          exact hP
    | ptr ns typeName id =>
      simp only [visitElemsWith] at h
      refine ih false _ ?_ h
      exact hP

theorem ne_fuel_visitRelDeclWith (env : Env)
    (inl : Bool → RelationshipDeclaration → Nat → WState → Except SerError WState)
    (P : List String → Prop)
    (hseen : ∀ ia d i st st', inl ia d i st = .ok st' → st'.seen = st.seen)
    (hinl : ∀ ia d i st, P st.seen → inl ia d i st ≠ .error .fuelExhausted) :
    ∀ (d : RelationshipDeclaration) (v : FieldVal) (st : WState),
      P st.seen → visitRelDeclWith env inl d v st ≠ .error .fuelExhausted := by
  intro d v st hP h
  cases v with
  | str s =>
    simp only [visitRelDeclWith] at h
    simp at h
  | rel rv =>
    cases rv with
    | res i =>
      simp only [visitRelDeclWith] at h
      split at h
      · refine hinl _ _ _ _ ?_ h
        exact hP
      · split at h
        · next e he =>
          simp only [Except.error.injEq] at h
          subst h
          exact getRelationshipText_ne_fuel env d (.res i) he
        · simp at h
    | ptr ns typeName id => simp [visitRelDeclWith] at h
  | relArray items =>
    simp only [visitRelDeclWith] at h
    split at h
    · next e he =>
      simp only [Except.error.injEq] at h
      subst h
      refine ne_fuel_visitElemsWith env inl P hseen hinl d items true _ ?_ he
      exact hP
    · simp at h

theorem ne_fuel_visitPropsWith
    (relVisit : RelationshipDeclaration → FieldVal → WState → Except SerError WState)
    (P : List String → Prop)
    (hseen : ∀ d v st st', relVisit d v st = .ok st' → st'.seen = st.seen)
    (hrel : ∀ d v st, P st.seen → relVisit d v st ≠ .error .fuelExhausted) :
    ∀ (props : List SchemaProperty) (r : ResourceData) (st : WState),
      P st.seen → visitPropsWith relVisit props r st ≠ .error .fuelExhausted := by
  intro props
  induction props with
  | nil => intro r st _ h; simp [visitPropsWith] at h
  | cons p rest ih =>
    intro r st hP h
    cases p with
    | str name =>
      simp only [visitPropsWith] at h
      split at h
      · refine ih _ _ ?_ h
        exact hP
      · simp at h
    | rel d =>
      simp only [visitPropsWith] at h
      split at h
      · split at h
        · next e he =>
          simp only [Except.error.injEq] at h
          subst h
          exact hrel _ _ _ hP he
        · next st1 hok =>
          have h1 : P st1.seen := by
            rw [hseen _ _ _ _ hok]
            exact hP
          exact ih _ _ h1 h
      · simp at h

theorem ne_fuel_inlineResource (env : Env) :
    ∀ (fuel : Nat) (inArray : Bool) (d : RelationshipDeclaration) (i : Nat) (st : WState),
      freshCount env st.seen < fuel →
      inlineResource env fuel inArray d i st ≠ .error .fuelExhausted := by
  intro fuel
  induction fuel with
  | zero => intro ia d i st hlt; exact absurd hlt (Nat.not_lt_zero _)
  | succ fuel ih =>
    intro ia d i st hlt h
    simp only [inlineResource] at h
    split at h
    · simp at h
    · next r hr =>
      split at h
      · simp at h
      · next hnotseen =>
        split at h
        · simp at h
        · next decl hdecl =>
          split at h
          · next e he =>
            simp only [Except.error.injEq] at h
            subst h
            have hmem : r ∈ env.arena := List.get?_mem hr
            have hnew : st.seen.contains r.fqi = false := by
              cases hc : st.seen.contains r.fqi
              · rfl
              · exact absurd hc hnotseen
            have hlt1 : freshCount env (r.fqi :: st.seen) < fuel := by
              have hd := freshCount_lt env hmem hnew
              omega
            have hfin := ne_fuel_visitPropsWith
              (visitRelDeclWith env (inlineResource env fuel))
              (fun s => freshCount env s < fuel)
              (seen_eq_visitRelDeclWith env _ (seen_eq_inlineResource env fuel))
              (ne_fuel_visitRelDeclWith env _ (fun s => freshCount env s < fuel)
                (seen_eq_inlineResource env fuel)
                (fun ia2 d2 i2 st2 hP2 => ih ia2 d2 i2 st2 hP2))
              decl.properties r _ hlt1 he
            exact hfin
          · simp at h

theorem ne_fuel_visitRelationshipDeclaration (env : Env) (fuel : Nat)
    (d : RelationshipDeclaration) (v : FieldVal) (st : WState)
    (h : freshCount env st.seen < fuel) :
    visitRelationshipDeclaration env fuel d v st ≠ .error .fuelExhausted :=
  ne_fuel_visitRelDeclWith env _ (fun s => freshCount env s < fuel)
    (seen_eq_inlineResource env fuel)
    (fun ia2 d2 i2 st2 hP2 => ne_fuel_inlineResource env fuel ia2 d2 i2 st2 hP2)
    d v st h

end Composer

namespace Composer

/-! ## Output depends on fields only through name lookup

The composite visitor reads the runtime value only via `lookupField`, so the
runtime storage order of fields cannot influence the output. -/

theorem visitPropsWith_congr
    (relVisit : RelationshipDeclaration → FieldVal → WState → Except SerError WState) :
    ∀ (props : List SchemaProperty) (r r' : ResourceData) (st : WState),
      (∀ n, lookupField r n = lookupField r' n) →
      visitPropsWith relVisit props r st = visitPropsWith relVisit props r' st := by
  intro props
  induction props with
  | nil => intro r r' st _; rfl
  | cons p rest ih =>
    intro r r' st hlk
    cases p with
    | str name =>
      simp only [visitPropsWith]
      rw [← hlk name]
      split
      · exact ih _ _ _ hlk
      · rfl
    | rel d =>
      simp only [visitPropsWith]
      rw [← hlk d.name]
      split
      · split
        · rfl
        · exact ih _ _ _ hlk
      · rfl

end Composer


namespace Composer

/-! ## Policy enforcement under the default options -/

theorem visitElemsWith_res_error_default (env : Env)
    (hp : env.gen.permitResourcesForRelationships = false)
    (hc : env.gen.convertResourcesToRelationships = false)
    (inl : Bool → RelationshipDeclaration → Nat → WState → Except SerError WState) :
    ∀ (d : RelationshipDeclaration) (vs : List RelValue) (i : Nat) (first : Bool) (st : WState),
      (RelValue.res i) ∈ vs →
      visitElemsWith env inl d vs first st = .error .relationshipType := by
  intro d vs
  induction vs with
  | nil => intro i first st hm; cases hm
  | cons v rest ih =>
    intro i first st hm
    cases v with
    | res j => simp [visitElemsWith, hp, getRelationshipText, hc]
    | ptr ns typeName id =>
      rcases List.mem_cons.mp hm with heq | hmem
      · cases heq
      · simp only [visitElemsWith]
        exact ih i false _ hmem

/-- Claim C2: with both options at their defaults, a relationship-typed
property whose value is a materialized resource fails with the
`RelationshipTypeError` whose message is matched by
`/Did not find a relationship/`, both for a singular value and whenever any
element of an array value is a resource; and `getRelationshipText` fails on a
resource exactly when `convertResourcesToRelationships` is disabled, while with
it enabled it resolves the resource by the namespace rule. -/
theorem C2_resource_policy_errors :
    (∀ (env : Env) (fuel : Nat) (d : RelationshipDeclaration) (i : Nat) (st : WState),
       env.gen.permitResourcesForRelationships = false →
       env.gen.convertResourcesToRelationships = false →
       visitRelationshipDeclaration env fuel d (.rel (.res i)) st = .error .relationshipType) ∧
    (∀ (env : Env) (fuel : Nat) (d : RelationshipDeclaration) (vs : List RelValue) (i : Nat)
       (st : WState),
       env.gen.permitResourcesForRelationships = false →
       env.gen.convertResourcesToRelationships = false →
       (RelValue.res i) ∈ vs →
       visitRelationshipDeclaration env fuel d (.relArray vs) st = .error .relationshipType) ∧
    (∀ (env : Env) (d : RelationshipDeclaration) (i : Nat),
       env.gen.convertResourcesToRelationships = false →
       getRelationshipText env d (.res i) = .error .relationshipType) ∧
    (∀ (env : Env) (d : RelationshipDeclaration) (i : Nat) (r : ResourceData),
       env.gen.convertResourcesToRelationships = true →
       env.arena.get? i = some r →
       getRelationshipText env d (.res i) = .ok (relationshipTextOf d r.ns r.typeName r.id)) ∧
    SerError.relationshipType.message = "Did not find a relationship" := by
  refine ⟨?_, ?_, ?_, ?_, rfl⟩
  · intro env fuel d i st hp hc
    simp [visitRelationshipDeclaration, visitRelDeclWith, hp, getRelationshipText, hc]
  · intro env fuel d vs i st hp hc hm
    simp only [visitRelationshipDeclaration, visitRelDeclWith]
    rw [visitElemsWith_res_error_default env hp hc _ d vs i true _ hm]
  · intro env d i hc
    simp [getRelationshipText, hc]
  · intro env d i r hc hr
    have hr' : env.arena[i]? = some r := by
      rw [← List.get?_eq_getElem?]
      exact hr
    simp [getRelationshipText, hc, hr']

/-- Witness for C2 at the concrete mock graphs of the test suite. -/
theorem C2_resource_policy_errors_witness :
    visitRelationshipDeclaration defaultEnv 5 myAssetDecl (.rel (.res 0)) ⟨[], [], []⟩ =
      .error .relationshipType ∧
    visitRelationshipDeclaration defaultEnv 5 myAssetsDecl (.relArray [.res 0, .res 1]) ⟨[], [], []⟩ =
      .error .relationshipType ∧
    getRelationshipText defaultEnv myAssetDecl (.res 0) = .error .relationshipType ∧
    getRelationshipText convEnv nextDecl (.res 0) = .ok "DOGE_1" :=
  ⟨C2_resource_policy_errors.1 defaultEnv 5 myAssetDecl 0 ⟨[], [], []⟩ rfl rfl,
   C2_resource_policy_errors.2.1 defaultEnv 5 myAssetsDecl [.res 0, .res 1] 0 ⟨[], [], []⟩
     rfl rfl (by decide),
   C2_resource_policy_errors.2.2.1 defaultEnv myAssetDecl 0 rfl,
   C2_resource_policy_errors.2.2.2.1 convEnv nextDecl 0
     { ns := "org.acme", typeName := "SimpleAssetCircle", id := "DOGE_1",
       fields := [("assetId", .str "DOGE_1"), ("next", .rel (.res 1))] } rfl rfl⟩

/-- Claim C3: `getRelationshipText` on a relationship pointer returns the bare
id when the pointer's namespace equals the declaring property's target
namespace and the fully qualified `namespace.typeName#id` form otherwise; it is
a pure function of its arguments (it is a plain Lean function here, with no
state in or out).  The two concrete conjuncts are the test cases `DOGE_1` and
`org.elsewhere.MyAsset1#DOGE_1`. -/
theorem C3_relationship_text :
    (∀ (env : Env) (d : RelationshipDeclaration) (ns typeName id : String),
       getRelationshipText env d (.ptr ns typeName id) =
         .ok (if ns = d.targetNamespace then id else ns ++ "." ++ typeName ++ "#" ++ id)) ∧
    getRelationshipText defaultEnv myAssetDecl (.ptr "org.acme" "MyAsset1" "DOGE_1") =
      .ok "DOGE_1" ∧
    getRelationshipText defaultEnv myAssetDecl (.ptr "org.elsewhere" "MyAsset1" "DOGE_1") =
      .ok "org.elsewhere.MyAsset1#DOGE_1" :=
  ⟨fun _ _ _ _ _ => rfl, rfl, rfl⟩

/-- Claim C7: the value dispatcher fails with `UnrecognisedValueError` on any
value outside the closed set of shapes (the `raw` arm, e.g. a bare numeric
literal such as `3.142`); the error aborts the call through the error channel
of `Except`. -/
theorem C7_unrecognised_value :
    (∀ (env : Env) (fuel : Nat) (d : RelationshipDeclaration) (found : String) (st : WState),
       dispatchSingular env fuel d (.raw found) st = .error (.unrecognisedValue found)) ∧
    (∀ (env : Env) (fuel : Nat) (d : RelationshipDeclaration) (found : String) (st : WState),
       dispatch env fuel d (.single (.raw found)) st = .error (.unrecognisedValue found)) ∧
    (SerError.unrecognisedValue "3.142").message = "Unrecognised 3.142" :=
  ⟨fun _ _ _ _ _ => rfl, fun _ _ _ _ _ => rfl, rfl⟩

end Composer

namespace Composer

/-! ## Cycle cutting: per-path, not per-call -/

/-- Counterexample to claim C1: in the two-node graph `A_1 → B_1`, one
`serialize` call over the array `[A_1, B_1]` inlines the identifier of `B_1`
twice (once under `A_1`, once as the top-level sibling), so an identifier is
not inlined at most once per call, and a later encounter of an
already-inlined identifier is rendered as a full object rather than a bare
reference string. -/
theorem C1_counterexample :
    (serializeRel chainEnv 10 itemsDecl (.relArray [.res 0, .res 1]) []).toOption.map
        (fun st => st.trace.count "org.acme.SimpleAssetCircle#B_1") = some 2 ∧
    ¬ (2 ≤ 1) :=
  ⟨rfl, by decide⟩

/-- Claim C1 as amended: an identifier is inlined at most once per descent
path.  While an identifier's object is open it is in the seen-set, and any
nested encounter of it renders as the bare identifier string with no further
descent (second conjunct); once its object closes it is removed from the
seen-set and a later sibling may inline it again.  For the 3-node cycle
`DOGE_1 → DOGE_2 → DOGE_3 → DOGE_1` inlined from `DOGE_1` this reproduces the
test fixture byte for byte: each identifier is inlined exactly once on the
single descent path, the innermost occurrence of `DOGE_1` renders as the bare
string `"DOGE_1"`, and the seen-set is empty again at the end of the call
(first conjunct). -/
theorem C1_inline_once_per_path :
    serializeRel circleEnv 10 nextDecl (.rel (.res 0)) [] =
      .ok { buf := ("\"next\":\x7b\"$class\":\"org.acme.SimpleAssetCircle\",\"assetId\":\"DOGE_1\",\"next\":\x7b\"$class\":\"org.acme.SimpleAssetCircle\",\"assetId\":\"DOGE_2\",\"next\":\x7b\"$class\":\"org.acme.SimpleAssetCircle\",\"assetId\":\"DOGE_3\",\"next\":\"DOGE_1\"\x7d\x7d\x7d").data,
            seen := [],
            trace := ["org.acme.SimpleAssetCircle#DOGE_1", "org.acme.SimpleAssetCircle#DOGE_2",
                      "org.acme.SimpleAssetCircle#DOGE_3"] } ∧
    (∀ (env : Env) (fuel : Nat) (inArray : Bool) (d : RelationshipDeclaration) (i : Nat)
       (st : WState) (r : ResourceData),
       env.arena.get? i = some r →
       st.seen.contains r.fqi = true →
       inlineResource env (fuel + 1) inArray d i st =
         .ok { st with buf := writeString st.buf (relationshipTextOf d r.ns r.typeName r.id) }) := by
  constructor
  · rfl
  · intro env fuel ia d i st r hr hc
    have hr2 : env.arena[i]? = some r := by
      rw [← List.get?_eq_getElem?]
      exact hr
    have hc2 : r.fqi ∈ st.seen := by simpa using hc
    simp [inlineResource, hr2, hc2]

/-- Witness for the quantified conjunct of C1: with `DOGE_1` already in the
seen-set, re-entering its inliner writes exactly the bare string `"DOGE_1"`
and changes nothing else. -/
theorem C1_inline_once_per_path_witness :
    inlineResource circleEnv 4 false nextDecl 0
        { buf := [], seen := ["org.acme.SimpleAssetCircle#DOGE_1"], trace := [] } =
      .ok { buf := ("\"DOGE_1\"").data,
            seen := ["org.acme.SimpleAssetCircle#DOGE_1"], trace := [] } :=
  C1_inline_once_per_path.2 circleEnv 3 false nextDecl 0
    { buf := [], seen := ["org.acme.SimpleAssetCircle#DOGE_1"], trace := [] }
    { ns := "org.acme", typeName := "SimpleAssetCircle", id := "DOGE_1",
      fields := [("assetId", .str "DOGE_1"), ("next", .rel (.res 1))] }
    rfl rfl

end Composer

namespace Composer

/-! ## Array separators -/

/-- Counterexample to claim C4: for the directly self-referencing resource
whose `next` array points at itself twice, the two consecutive back-reference
elements are emitted as `"DOGE_1""DOGE_1"` with no separator between them (the
omission the spec flags as an open question), so consecutive emitted elements
are not always separated. -/
theorem C4_counterexample :
    renderOf (serializeRel selfLoopEnv 10 nextArrDecl (.relArray [.res 0]) []) =
      some "\"next\":[\x7b\"$class\":\"org.acme.SimpleAssetCircleArray\",\"assetId\":\"DOGE_1\",\"next\":[\"DOGE_1\"\"DOGE_1\"]\x7d]" ∧
    renderOf (serializeRel selfLoopEnv 10 nextArrDecl (.relArray [.res 0]) []) ≠
      some "\"next\":[\x7b\"$class\":\"org.acme.SimpleAssetCircleArray\",\"assetId\":\"DOGE_1\",\"next\":[\"DOGE_1\",\"DOGE_1\"]\x7d]" :=
  ⟨rfl, by decide⟩

/-- Claim C4 as amended: an array-valued relationship property opens an array
marker, processes elements in original order with the singular rule, and
closes the marker; a separator is written before each resolved (non-inlined)
element except the first (third and fourth conjuncts), and before each inlined
object except immediately after the opening bracket, but an element rendered
as a bare back-reference string is appended with no preceding separator
(second conjunct, shown on the self-loop).  Two non-inlined pointer elements
render as `["DOGE_1","DOGE_2"]` with exactly one separator (first
conjunct). -/
theorem C4_array_separators :
    renderOf (serializeRel defaultEnv 10 myAssetsDecl
        (.relArray [.ptr "org.acme" "MyAsset1" "DOGE_1", .ptr "org.acme" "MyAsset1" "DOGE_2"]) []) =
      some "\"myAssets\":[\"DOGE_1\",\"DOGE_2\"]" ∧
    renderOf (serializeRel selfLoopEnv 10 nextArrDecl (.relArray [.res 0]) []) =
      some "\"next\":[\x7b\"$class\":\"org.acme.SimpleAssetCircleArray\",\"assetId\":\"DOGE_1\",\"next\":[\"DOGE_1\"\"DOGE_1\"]\x7d]" ∧
    (∀ (env : Env) (inl : Bool → RelationshipDeclaration → Nat → WState → Except SerError WState)
       (d : RelationshipDeclaration) (ns typeName id : String) (rest : List RelValue)
       (st : WState),
       visitElemsWith env inl d (.ptr ns typeName id :: rest) false st =
         visitElemsWith env inl d rest false
           { st with buf := writeString (st.buf ++ [',']) (relationshipTextOf d ns typeName id) }) ∧
    (∀ (env : Env) (inl : Bool → RelationshipDeclaration → Nat → WState → Except SerError WState)
       (d : RelationshipDeclaration) (ns typeName id : String) (rest : List RelValue)
       (st : WState),
       visitElemsWith env inl d (.ptr ns typeName id :: rest) true st =
         visitElemsWith env inl d rest false
           { st with buf := writeString st.buf (relationshipTextOf d ns typeName id) }) :=
  ⟨rfl, rfl, fun _ _ _ _ _ _ _ _ => rfl, fun _ _ _ _ _ _ _ _ => rfl⟩

/-! ## Termination -/

/-- Counterexample to claim C5: the graph with the single identifier
`org.acme.SimpleAssetCircle#A_1` (so N = 1), serialized over the array
`[A_1, A_1]`, invokes `inline` on that identifier twice in one call — the
seen-set does not grow monotonically over the call (the identifier is erased
when its object closes), so `inline` is not invoked at most once per
identifier per call. -/
theorem C5_counterexample :
    freshCount soloEnv [] = 1 ∧
    (serializeRel soloEnv 10 itemsDecl (.relArray [.res 0, .res 0]) []).toOption.map
        (fun st => st.trace.count "org.acme.SimpleAssetCircle#A_1") = some 2 ∧
    ¬ (2 ≤ 1) :=
  ⟨rfl, rfl, by decide⟩

/-- Claim C5 as amended: the identifier is inserted into the seen-set before
any descent into the resource's properties (so even a directly
self-referencing resource is caught on re-entry), and along any single descent
path each distinct identifier is inlined at most once; hence the inlining
depth is bounded by the number N of distinct identifiers of the graph and the
traversal terminates: with any fuel exceeding the number of distinct
identifiers not yet seen, the serializer never reports fuel exhaustion
(first conjunct); on an empty seen-set that bound is exactly the number N of
distinct arena identifiers (second conjunct). -/
theorem C5_termination_bound :
    (∀ (env : Env) (fuel : Nat) (d : RelationshipDeclaration) (v : FieldVal) (st : WState),
       freshCount env st.seen < fuel →
       visitRelationshipDeclaration env fuel d v st ≠ .error .fuelExhausted) ∧
    (∀ env : Env, freshCount env [] = ((env.arena.map ResourceData.fqi).dedup).length) := by
  constructor
  · exact fun env fuel d v st h => ne_fuel_visitRelationshipDeclaration env fuel d v st h
  · intro env
    simp [freshCount]

/-- Witness for C5: the cyclic array graph has 3 distinct identifiers, and
with fuel 4 the full serialization of the triple cycle does not exhaust
fuel. -/
theorem C5_termination_bound_witness :
    freshCount circleArrayEnv [] < 4 ∧
    serializeRel circleArrayEnv 4 nextArrDecl (.relArray [.res 0, .res 1, .res 2]) [] ≠
      .error .fuelExhausted :=
  ⟨by decide,
   C5_termination_bound.1 circleArrayEnv 4 nextArrDecl (.relArray [.res 0, .res 1, .res 2])
     { buf := [], seen := [], trace := [] } (by decide)⟩

end Composer

namespace Composer

/-! ## Discriminator first, schema order -/

theorem fqn_eq_of_getType {mm : List ClassDeclaration} {fqtn : String} {decl : ClassDeclaration}
    (h : getType mm fqtn = some decl) : decl.fqn = fqtn := by
  unfold getType at h
  have h1 := List.find?_some h
  exact beq_iff_eq.mp h1

theorem discriminatorChunk_eq (fqtn : String) :
    discriminatorChunk fqtn =
      '\x7b' :: '"' :: ("$class".data ++ '"' :: ':' :: '"' :: (fqtn.data ++ ['"'])) := rfl

/-- Claim C6: whenever the composite visitor inlines a resource, the emitted
object opens with the type discriminator property whose value is the
resource's fully qualified type name — everything between the preceding
separator (if any) and the rest of the object is exactly
`discriminatorChunk r.fqtn` (first conjunct); the remaining properties are
walked in the schema's declared order reading the runtime value only through
name lookup, so two resources whose fields agree as name-to-value mappings
serialize identically regardless of runtime field order (second conjunct); in
particular the fixture resource with its runtime fields stored in reverse
order still renders `assetId` before `next` as the schema declares (third
conjunct). -/
theorem C6_discriminator_first_schema_order :
    (∀ (env : Env) (fuel : Nat) (inArray : Bool) (d : RelationshipDeclaration) (i : Nat)
       (st st' : WState) (r : ResourceData) (decl : ClassDeclaration),
       env.arena.get? i = some r →
       st.seen.contains r.fqi = false →
       getType env.modelManager r.fqtn = some decl →
       inlineResource env (fuel + 1) inArray d i st = .ok st' →
       ∃ rest, st'.buf =
         (if inArray then writeCommaCond st.buf else st.buf) ++
           discriminatorChunk r.fqtn ++ rest) ∧
    (∀ (relVisit : RelationshipDeclaration → FieldVal → WState → Except SerError WState)
       (props : List SchemaProperty) (r r' : ResourceData) (st : WState),
       (∀ n, lookupField r n = lookupField r' n) →
       visitPropsWith relVisit props r st = visitPropsWith relVisit props r' st) ∧
    renderOf (serializeRel reversedEnv 10 nextDecl (.rel (.res 0)) []) =
      some "\"next\":\x7b\"$class\":\"org.acme.SimpleAssetCircle\",\"assetId\":\"DOGE_1\",\"next\":\"DOGE_9\"\x7d" := by
  refine ⟨?_, visitPropsWith_congr, rfl⟩
  intro env fuel ia d i st st' r decl hr hcon hdecl hok
  have hfqn : decl.fqn = r.fqtn := fqn_eq_of_getType hdecl
  simp only [inlineResource, hr] at hok
  split at hok
  · next hcc =>
    rw [hcon] at hcc
    exact Bool.noConfusion hcc
  · simp only [hdecl] at hok
    split at hok
    · simp at hok
    · next st2 hpw =>
      simp only [Except.ok.injEq] at hok
      obtain ⟨t, ht⟩ := buf_ext_visitPropsWith _
        (buf_ext_visitRelDeclWith env _ (buf_ext_inlineResource env fuel)) _ _ _ _ hpw
      refine ⟨t ++ ['\x7d'], ?_⟩
      rw [← hok]
      show closeObject st2.buf = _
      unfold closeObject
      rw [ht]
      rw [← hfqn, discriminatorChunk_eq, writeString_eq]
      have hkey : needsCommaForKey
          (openObject (if ia = true then writeCommaCond st.buf else st.buf)) = false := by
        unfold openObject needsCommaForKey
        rw [List.getLast?_concat]
        rfl
      unfold writeKey
      rw [hkey]
      simp [openObject]

end Composer

namespace Composer

/-- Witness for C6: inlining `DOGE_1` of the 3-node cycle from a fresh state
produces a buffer that starts with the discriminator chunk for
`org.acme.SimpleAssetCircle`. -/
theorem C6_discriminator_first_schema_order_witness :
    ∃ rest,
      ("\x7b\"$class\":\"org.acme.SimpleAssetCircle\",\"assetId\":\"DOGE_1\",\"next\":\x7b\"$class\":\"org.acme.SimpleAssetCircle\",\"assetId\":\"DOGE_2\",\"next\":\x7b\"$class\":\"org.acme.SimpleAssetCircle\",\"assetId\":\"DOGE_3\",\"next\":\"DOGE_1\"\x7d\x7d\x7d").data =
        discriminatorChunk "org.acme.SimpleAssetCircle" ++ rest := by
  have h := C6_discriminator_first_schema_order.1 circleEnv 9 false nextDecl 0
    { buf := [], seen := [], trace := [] }
    { buf := ("\x7b\"$class\":\"org.acme.SimpleAssetCircle\",\"assetId\":\"DOGE_1\",\"next\":\x7b\"$class\":\"org.acme.SimpleAssetCircle\",\"assetId\":\"DOGE_2\",\"next\":\x7b\"$class\":\"org.acme.SimpleAssetCircle\",\"assetId\":\"DOGE_3\",\"next\":\"DOGE_1\"\x7d\x7d\x7d").data,
      seen := [],
      trace := ["org.acme.SimpleAssetCircle#DOGE_1", "org.acme.SimpleAssetCircle#DOGE_2",
                "org.acme.SimpleAssetCircle#DOGE_3"] }
    { ns := "org.acme", typeName := "SimpleAssetCircle", id := "DOGE_1",
      fields := [("assetId", .str "DOGE_1"), ("next", .rel (.res 1))] }
    { ns := "org.acme", name := "SimpleAssetCircle",
      properties := [ .str "assetId",
        .rel { name := "next", targetNamespace := "org.acme", targetTypeName := "SimpleAssetCircle" } ] }
    rfl rfl rfl rfl
  obtain ⟨rest, hrest⟩ := h
  exact ⟨rest, hrest⟩

end Composer

namespace Composer

/-! ## Determinism across calls -/

/-- Claim C8: the serializer is deterministic.  A `serialize` call is a pure
function of the root value, the schema, the options and the caller-supplied
seen-set; moreover a completed call restores the seen-set it was given, so a
second call on the same graph with the same options — even one reusing the
first call's final seen-set, as a caller sharing `options.seenResources`
would — produces the byte-identical result. -/
theorem C8_serialize_deterministic :
    ∀ (env : Env) (fuel : Nat) (d : RelationshipDeclaration) (v : FieldVal)
      (seen : List String) (st : WState),
      serializeRel env fuel d v seen = .ok st →
      st.seen = seen ∧ serializeRel env fuel d v st.seen = .ok st := by
  intro env fuel d v seen st h
  have hs : st.seen = seen := seen_eq_visitRelationshipDeclaration env fuel d v _ _ h
  constructor
  · exact hs
  · rw [hs]
    exact h

/-- Witness for C8 on the acyclic two-node graph: the first call yields the
expected state with its seen-set restored to empty, and the second call
starting from that seen-set yields the byte-identical state. -/
theorem C8_serialize_deterministic_witness :
    ({ buf := ("\"items\":[\x7b\"$class\":\"org.acme.SimpleAssetCircle\",\"assetId\":\"A_1\",\"next\":\x7b\"$class\":\"org.acme.SimpleAssetCircle\",\"assetId\":\"B_1\",\"next\":\"A_1\"\x7d\x7d,\x7b\"$class\":\"org.acme.SimpleAssetCircle\",\"assetId\":\"B_1\",\"next\":\"A_1\"\x7d]").data,
       seen := [],
       trace := ["org.acme.SimpleAssetCircle#A_1", "org.acme.SimpleAssetCircle#B_1",
                 "org.acme.SimpleAssetCircle#B_1"] } : WState).seen = [] ∧
    serializeRel chainEnv 10 itemsDecl (.relArray [.res 0, .res 1])
        (({ buf := ("\"items\":[\x7b\"$class\":\"org.acme.SimpleAssetCircle\",\"assetId\":\"A_1\",\"next\":\x7b\"$class\":\"org.acme.SimpleAssetCircle\",\"assetId\":\"B_1\",\"next\":\"A_1\"\x7d\x7d,\x7b\"$class\":\"org.acme.SimpleAssetCircle\",\"assetId\":\"B_1\",\"next\":\"A_1\"\x7d]").data,
            seen := [],
            trace := ["org.acme.SimpleAssetCircle#A_1", "org.acme.SimpleAssetCircle#B_1",
                      "org.acme.SimpleAssetCircle#B_1"] } : WState).seen) =
      .ok { buf := ("\"items\":[\x7b\"$class\":\"org.acme.SimpleAssetCircle\",\"assetId\":\"A_1\",\"next\":\x7b\"$class\":\"org.acme.SimpleAssetCircle\",\"assetId\":\"B_1\",\"next\":\"A_1\"\x7d\x7d,\x7b\"$class\":\"org.acme.SimpleAssetCircle\",\"assetId\":\"B_1\",\"next\":\"A_1\"\x7d]").data,
            seen := [],
            trace := ["org.acme.SimpleAssetCircle#A_1", "org.acme.SimpleAssetCircle#B_1",
                      "org.acme.SimpleAssetCircle#B_1"] } :=
  C8_serialize_deterministic chainEnv 10 itemsDecl (.relArray [.res 0, .res 1]) [] _ rfl

end Composer

namespace Composer

/-! ## Profile validator claims -/

/-- Claim C9: every completed (non-throwing) `validateProfile` call leaves the
module-level `errorList` empty, whatever profile it was given and whatever was
in the list beforehand: if rule application accumulated a nonempty list it is
printed and truncated to length 0, and otherwise it was already empty. -/
theorem C9_errorList_empty_after_validate :
    ∀ (isUri : String → Bool) (p : ConnectionProfile) (errorList out final : List String),
      validateProfile isUri p errorList = .ok (out, final) → final = [] := by
  intro isUri p errorList out final h
  unfold validateProfile at h
  split at h
  · simp at h
  · next errs heq =>
    split at h
    · simp only [Except.ok.injEq, Prod.mk.injEq] at h
      exact h.2.symm
    · next hlen =>
      simp only [Except.ok.injEq, Prod.mk.injEq] at h
      have hz : errs.length = 0 := not_not.mp hlen
      have he : errs = [] := List.length_eq_zero.mp hz
      rw [← h.2, he]

/-- Witness for C9: a dirty profile run over a stale nonempty `errorList`
reports the accumulated errors and leaves the list empty. -/
theorem C9_errorList_empty_after_validate_witness :
    validateProfile (fun _ => true) dirtyProfile ["stale"] =
      .ok (["stale", "profile name property value is not valid for Composer: %test%",
            "profile x-type property value is not valid for Composer: hlfv99",
            "Profile client specfies an organization that is not included in the list of organizations: Org1",
            "Orderer does not have a url property: orderer2"], []) ∧
    ([] : List String) = [] :=
  ⟨rfl,
   C9_errorList_empty_after_validate (fun _ => true) dirtyProfile ["stale"]
     ["stale", "profile name property value is not valid for Composer: %test%",
      "profile x-type property value is not valid for Composer: hlfv99",
      "Profile client specfies an organization that is not included in the list of organizations: Org1",
      "Orderer does not have a url property: orderer2"] [] rfl⟩

/-- Claim C10: the `profileHasValidNameProperty` rule appends exactly one
error when the name property is absent, exactly one error when the name is
present (nonempty) but contains a character outside ASCII letters and digits,
and none when the name is nonempty and alphanumeric. -/
theorem C10_name_rule :
    (∀ (p : ConnectionProfile) (errorList : List String),
       p.name = none →
       profileHasValidNameProperty p errorList =
         errorList ++ ["profile does not have a name property"]) ∧
    (∀ (p : ConnectionProfile) (errorList : List String) (s : String),
       p.name = some s → s ≠ "" →
       (∃ c ∈ s.data, ¬(c.isAlpha = true ∨ c.isDigit = true)) →
       profileHasValidNameProperty p errorList =
         errorList ++ ["profile name property value is not valid for Composer: " ++ s]) ∧
    (∀ (p : ConnectionProfile) (errorList : List String) (s : String),
       p.name = some s → s ≠ "" →
       (∀ c ∈ s.data, c.isAlpha = true ∨ c.isDigit = true) →
       profileHasValidNameProperty p errorList = errorList) := by
  refine ⟨?_, ?_, ?_⟩
  · intro p errorList hname
    simp [profileHasValidNameProperty, hname, jsTruthyStr]
  · intro p errorList s hname hne hbad
    obtain ⟨c, hc, hcbad⟩ := hbad
    have htruthy : jsTruthyStr (some s) = true := by
      simpa [jsTruthyStr] using hne
    have hregex : nameRegexTest s = false := by
      unfold nameRegexTest
      have hall : s.data.all (fun c => c.isAlpha || c.isDigit) = false := by
        rw [List.all_eq_false]
        refine ⟨c, hc, ?_⟩
        simpa using hcbad
      simp [hall]
    simp [profileHasValidNameProperty, hname, htruthy, hregex]
  · intro p errorList s hname hne hgood
    have htruthy : jsTruthyStr (some s) = true := by
      simpa [jsTruthyStr] using hne
    have hregex : nameRegexTest s = true := by
      unfold nameRegexTest
      have hall : s.data.all (fun c => c.isAlpha || c.isDigit) = true := by
        rw [List.all_eq_true]
        intro c hc
        simpa using hgood c hc
      have hdata : s.data ≠ [] := by
        intro hnil
        exact hne (String.ext hnil)
      have hlen : (s.length != 0) = true := by
        simp only [bne_iff_ne, ne_eq]
        intro hz
        exact hdata (List.length_eq_zero.mp hz)
      simp [hall, hlen]
    simp [profileHasValidNameProperty, hname, htruthy, hregex]

/-- Witness for C10 at the test suite's inputs plus a hyphenated name. -/
theorem C10_name_rule_witness :
    profileHasValidNameProperty { dirtyProfile with name := none } [] =
      ["profile does not have a name property"] ∧
    profileHasValidNameProperty dirtyProfile [] =
      ["profile name property value is not valid for Composer: %test%"] ∧
    profileHasValidNameProperty { dirtyProfile with name := some "my-profile" } [] =
      ["profile name property value is not valid for Composer: my-profile"] ∧
    profileHasValidNameProperty cleanProfile [] = [] :=
  ⟨C10_name_rule.1 { dirtyProfile with name := none } [] rfl,
   C10_name_rule.2.1 dirtyProfile [] "%test%" rfl (by decide)
     ⟨'%', by decide, by decide⟩,
   C10_name_rule.2.1 { dirtyProfile with name := some "my-profile" } [] "my-profile" rfl
     (by decide) ⟨'-', by decide, by decide⟩,
   C10_name_rule.2.2 cleanProfile [] "test" rfl (by decide) (by decide)⟩

end Composer

namespace Composer

set_option maxRecDepth 20000 in
/-- Model validation: the serializer reproduces, byte for byte, the expected
buffer of the test `should serialize a circular array of resources if option
is specified` — the fixture that pins down both the per-path seen-set
behaviour and the separator omissions before bare back-reference strings. -/
theorem circleArray_fixture_buffer :
    renderOf (serializeRel circleArrayEnv 10 nextArrDecl (.relArray [.res 0, .res 1, .res 2]) []) =
      some "\"next\":[\x7b\"$class\":\"org.acme.SimpleAssetCircleArray\",\"assetId\":\"DOGE_1\",\"next\":[\x7b\"$class\":\"org.acme.SimpleAssetCircleArray\",\"assetId\":\"DOGE_2\",\"next\":[\x7b\"$class\":\"org.acme.SimpleAssetCircleArray\",\"assetId\":\"DOGE_3\",\"next\":[\"DOGE_1\"\"DOGE_2\"]\x7d\"DOGE_1\"]\x7d,\x7b\"$class\":\"org.acme.SimpleAssetCircleArray\",\"assetId\":\"DOGE_3\",\"next\":[\"DOGE_1\",\x7b\"$class\":\"org.acme.SimpleAssetCircleArray\",\"assetId\":\"DOGE_2\",\"next\":[\"DOGE_3\"\"DOGE_1\"]\x7d]\x7d]\x7d,\x7b\"$class\":\"org.acme.SimpleAssetCircleArray\",\"assetId\":\"DOGE_2\",\"next\":[\x7b\"$class\":\"org.acme.SimpleAssetCircleArray\",\"assetId\":\"DOGE_3\",\"next\":[\x7b\"$class\":\"org.acme.SimpleAssetCircleArray\",\"assetId\":\"DOGE_1\",\"next\":[\"DOGE_2\"\"DOGE_3\"]\x7d\"DOGE_2\"]\x7d,\x7b\"$class\":\"org.acme.SimpleAssetCircleArray\",\"assetId\":\"DOGE_1\",\"next\":[\"DOGE_2\",\x7b\"$class\":\"org.acme.SimpleAssetCircleArray\",\"assetId\":\"DOGE_3\",\"next\":[\"DOGE_1\"\"DOGE_2\"]\x7d]\x7d]\x7d,\x7b\"$class\":\"org.acme.SimpleAssetCircleArray\",\"assetId\":\"DOGE_3\",\"next\":[\x7b\"$class\":\"org.acme.SimpleAssetCircleArray\",\"assetId\":\"DOGE_1\",\"next\":[\x7b\"$class\":\"org.acme.SimpleAssetCircleArray\",\"assetId\":\"DOGE_2\",\"next\":[\"DOGE_3\"\"DOGE_1\"]\x7d\"DOGE_3\"]\x7d,\x7b\"$class\":\"org.acme.SimpleAssetCircleArray\",\"assetId\":\"DOGE_2\",\"next\":[\"DOGE_3\",\x7b\"$class\":\"org.acme.SimpleAssetCircleArray\",\"assetId\":\"DOGE_1\",\"next\":[\"DOGE_2\"\"DOGE_3\"]\x7d]\x7d]\x7d]" := rfl

end Composer
